import Mathlib

/-!
Shallow embedding of the ARM64 prolog/epilog and instruction-selection
subsystem from `src/jit/codegenarm64.cpp`, together with theorems settling
the frozen claims about it.

Machine registers are modelled as natural numbers using the JIT's register
numbering (R0..R28 = 0..28, FP = 29, LR = 30, SP/ZR = 31, V0..V31 = 32..63).
Emitted instructions, unwind callbacks and GC-liveness callbacks are modelled
as an ordered list of `Event`s, mirroring the order of `emitIns_*`,
`unwind*` and `gcMark*` calls in the source.
-/

namespace CodegenArm64

/-- JIT register number (R0..R28 = 0..28, FP = 29, LR = 30, SP/ZR = 31,
V0..V31 = 32..63). -/
abbrev Reg := Nat

def REG_R28 : Reg := 28
def REG_FP : Reg := 29
def REG_LR : Reg := 30
def REG_SPBASE : Reg := 31
def REG_ZR : Reg := 31
/-- Sentinel for "no register" (`REG_NA`). -/
def REG_NA : Reg := 255

/-- `genIsValidFloatReg`: the floating/vector registers V0..V31. -/
def genIsValidFloatReg (r : Reg) : Bool := 32 ≤ r && r ≤ 63

/-- `REG_NEXT`: the next register in the numbering. -/
def REG_NEXT (r : Reg) : Reg := r + 1

def REGSIZE_BYTES : Nat := 8
def STACK_ALIGN : Nat := 16
/-- `MAX_REG_ARG` on ARM64: integer argument registers x0..x7. -/
def MAX_REG_ARG : Nat := 8

/-- `roundUp(n, STACK_ALIGN)` from the JIT utilities: round up to a
multiple of 16. -/
def roundUp16 (n : Nat) : Nat := ((n + 15) / 16) * 16

/-- Instruction mnemonics appearing in the modelled code paths. -/
inductive ArmIns where
  | add | sub | adds
  | strb | strh | str | ldrsb | ldrsh | ldrsw | ldrb | ldrh | ldr
  | stp | ldp
  | mov | movz | movn | movk | tst | cmp
  | sdiv | udiv
  | ldaxr | stlxr | cbnz | bne
  | swpal | staddl | ldaddal | casal
  | adrp | ret | bl
  deriving DecidableEq, Repr

/-- Addressing options for emitted load/store instructions. -/
inductive InsOpts where
  | none | preIndex | postIndex | lsl
  deriving DecidableEq, Repr

/-- Conditions used for conditional jumps (`emitJumpKind`). -/
inductive JumpKind where
  | jmp | eq | ne | vs
  deriving DecidableEq, Repr

/-- Runtime-trap kinds (`SpecialCodeKind`). -/
inductive ThrowKind where
  | divByZero | arithExcpn
  deriving DecidableEq, Repr

/-- One observable action of the code generator: an emitted instruction,
an unwind-builder callback, or a GC-liveness callback, in emission order. -/
inductive Event where
  | insRR (ins : ArmIns) (r1 r2 : Reg)
  | insRI (ins : ArmIns) (r : Reg) (imm : Int)
  | insRII (ins : ArmIns) (r : Reg) (imm : Int) (shift : Nat) (opts : InsOpts)
  | insRRI (ins : ArmIns) (r1 r2 : Reg) (imm : Int) (opts : InsOpts)
  | insRRR (ins : ArmIns) (r1 r2 r3 : Reg)
  | insRRRI (ins : ArmIns) (r1 r2 r3 : Reg) (imm : Int) (opts : InsOpts)
  | insRAI (ins : ArmIns) (r : Reg) (imm : Int)
  | insJR (ins : ArmIns) (lbl : Nat) (r : Reg)
  | insJ (ins : ArmIns) (lbl : Nat)
  | instJMP (cond : JumpKind) (lbl : Nat)
  | defineLabel (lbl : Nat)
  | jumpToThrowHlpBlk (cond : JumpKind) (kind : ThrowKind)
  | unwindAllocStack (amount : Nat)
  | unwindSaveRegPairPreindexed (r1 r2 : Reg) (delta : Int)
  | unwindSaveRegPair (r1 r2 : Reg) (offset : Int)
  | unwindSaveRegPreindexed (r : Reg) (delta : Int)
  | unwindSaveReg (r : Reg) (offset : Int)
  | unwindSaveNext
  | unwindPadding
  | verifyRegUsed (r : Reg)
  | gcMarkRegPtrVal (r : Reg)
  | gcMarkRegSetNpt (r : Reg)
  | memoryBarrier
  deriving DecidableEq, Repr

/-- GC-liveness callbacks: the events the external liveness tracker sees. -/
def Event.isGcEvent : Event → Bool
  | .gcMarkRegPtrVal _ => true
  | .gcMarkRegSetNpt _ => true
  | _ => false

/-- Events that correspond to an emitted machine instruction (as opposed to
unwind or GC bookkeeping callbacks). -/
def Event.isInstruction : Event → Bool
  | .insRR _ _ _ => true
  | .insRI _ _ _ => true
  | .insRII _ _ _ _ _ => true
  | .insRRI _ _ _ _ _ => true
  | .insRRR _ _ _ _ => true
  | .insRRRI _ _ _ _ _ _ => true
  | .insRAI _ _ _ => true
  | .insJR _ _ _ => true
  | .insJ _ _ => true
  | .instJMP _ _ => true
  | .jumpToThrowHlpBlk _ _ => true
  | _ => false

/-- Number of machine instructions in an event trace. -/
def insCount (evs : List Event) : Nat := (evs.filter Event.isInstruction).length

/-- Operation size: the subsystem only distinguishes 8-byte (`EA_8BYTE`,
`size64 = true`) from 4-byte (`EA_4BYTE`) operations in the modelled paths. -/
structure EmitAttr where
  size64 : Bool
  deriving DecidableEq, Repr

def EA_8BYTE : EmitAttr := ⟨true⟩
def EA_4BYTE : EmitAttr := ⟨false⟩
/-- `EA_PTRSIZE` on ARM64 is 8 bytes. -/
def EA_PTRSIZE : EmitAttr := ⟨true⟩

/-- Modelled from the spec: `emitter::emitIns_valid_imm_for_add` lives in
the emitter (`emitarm64.cpp`), which is not part of this source tree. Per
§4.1 the (non-negative) magnitude must fit the add/sub instruction's
encodable immediate field: on this architecture an unsigned 12-bit value,
optionally shifted left by 12. -/
def emitIns_valid_imm_for_add (imm : Int) : Bool :=
  imm.natAbs ≤ 4095 || (imm.natAbs % 4096 = 0 && imm.natAbs ≤ 4095 * 4096)

/-- Modelled from the spec: `emitter::emitIns_valid_imm_for_ldst_offset`
lives in the emitter, which is not part of this source tree. Per §4.1 the
immediate must fit the addressing-mode offset field: a signed 9-bit unscaled
offset, or an unsigned scaled 12-bit offset (scale = operand size). -/
def emitIns_valid_imm_for_ldst_offset (imm : Int) (attr : EmitAttr) : Bool :=
  let scale : Int := if attr.size64 then 8 else 4
  (-256 ≤ imm && imm ≤ 255) ||
    (0 ≤ imm && imm % scale = 0 && imm / scale ≤ 4095)

/-- The 16-bit field of the 64-bit two's-complement pattern of `imm`
starting at bit `i`; matches `uint16_t(imm >> i)` on a 64-bit `ssize_t`
for `i + 16 ≤ 64`. -/
def halfwordAt (imm : Int) (i : Nat) : Nat :=
  ((imm.emod (2 ^ 64)).toNat >>> i) % 65536

/-- The bit positions of the 16-bit fields examined by
`instGen_Set_Reg_To_Imm`: four fields for 64-bit operations, two for
32-bit ones. -/
def movFieldPositions (attr : EmitAttr) : List Nat :=
  if attr.size64 then [0, 16, 32, 48] else [0, 16]

/-- The values of the 16-bit fields of `imm` examined by
`instGen_Set_Reg_To_Imm` for the given operation size. -/
def movFields (attr : EmitAttr) (imm : Int) : List Nat :=
  (movFieldPositions attr).map (halfwordAt imm)

/-- Modelled from the spec: `emitter::emitIns_valid_imm_for_mov` lives in
the emitter, which is not part of this source tree. Per §4.1/§4.6 a value
is single-`mov` encodable when it is a halfword immediate (all examined
16-bit fields zero except at most one, encodable by `movz`) or an inverted
halfword immediate (all fields `0xffff` except at most one, encodable by
`movn`). (The hardware also accepts bitmask immediates via the `orr` alias;
the spec does not describe that test and no claim depends on it.) -/
def emitIns_valid_imm_for_mov (imm : Int) (attr : EmitAttr) : Bool :=
  ((movFields attr imm).filter (· ≠ 0)).length ≤ 1 ||
    ((movFields attr imm).filter (· ≠ 65535)).length ≤ 1

/-- Modelled from the spec: `instGen_Set_Reg_To_Zero` lives outside this
source file; per §4.1 the exact-zero case is a single instruction
(`mov reg, zr`). -/
def instGen_Set_Reg_To_Zero (reg : Reg) : List Event :=
  [Event.insRR ArmIns.mov reg REG_ZR]

/-- The `movn`-vs-`movz` vote of `instGen_Set_Reg_To_Imm`: per examined
16-bit field, +1 when the field is `0xffff` (a `movk 0xffff` could be
skipped with `movn`), −1 when it is `0x0000` (a `movk 0` could be skipped
with `movz`). The source loops from the high field down; the sum is
order-independent. -/
def preferMovn (attr : EmitAttr) (imm : Int) : Int :=
  ((movFieldPositions attr).map fun i =>
    if halfwordAt imm i = 65535 then (1 : Int)
    else if halfwordAt imm i = 0 then -1 else 0).sum

/-- The field-emission loop of `instGen_Set_Reg_To_Imm`: walk the 16-bit
fields from bit 0 upward, skipping fields equal to `skipVal`; the first
emitted instruction is the initializing `movz`/`movn` (for `movn` the
field is bitwise-inverted), every later one is a `movk`. -/
def movEmitLoop (reg : Reg) (imm : Int) (skipVal : Nat) :
    List Nat → ArmIns → List Event
  | [], _ => []
  | i :: rest, ins =>
    let imm16 := halfwordAt imm i
    if imm16 ≠ skipVal then
      Event.insRII ins reg
          (if ins = ArmIns.movn then (65535 - imm16 : Nat) else imm16) i
          InsOpts.lsl ::
        movEmitLoop reg imm skipVal rest ArmIns.movk
    else
      movEmitLoop reg imm skipVal rest ins

/-- `CodeGen::instGen_Set_Reg_To_Imm`: move an immediate value into an
integer register. `isReloc` stands for `EA_IS_RELOC(size)` after the
`compReloc` strip; `flagsSet` stands for `flags == INS_FLAGS_SET`. -/
def instGen_Set_Reg_To_Imm (attr : EmitAttr) (isReloc : Bool) (reg : Reg)
    (imm : Int) (flagsSet : Bool) : List Event :=
  (if isReloc then
    -- This emits a pair of adrp/add (two instructions) with fix-ups.
    [Event.insRAI ArmIns.adrp reg imm]
  else if imm = 0 then
    instGen_Set_Reg_To_Zero reg
  else
    (if emitIns_valid_imm_for_mov imm attr then
      [Event.insRI ArmIns.mov reg imm]
    else
      let useMovn := 0 < preferMovn attr imm
      let ins := if useMovn then ArmIns.movn else ArmIns.movz
      let skipVal := if useMovn then 65535 else 0
      movEmitLoop reg imm skipVal (movFieldPositions attr) ins) ++
    (if flagsSet then [Event.insRI ArmIns.tst reg 0] else [])) ++
  [Event.verifyRegUsed reg]

/-- `CodeGen::genInstrWithConstant`: emit `ins reg1, reg2, imm`, falling
back to materializing `imm` into `tmpReg` and using the three-register
form when the immediate does not fit. Returns the boolean result of the
source function (`immFitsInIns`) together with the emitted events. -/
def genInstrWithConstant (ins : ArmIns) (attr : EmitAttr) (reg1 reg2 : Reg)
    (imm : Int) (tmpReg : Reg) (inUnwindRegion : Bool) :
    Bool × List Event :=
  let size := attr -- EA_SIZE(attr)
  let step : ArmIns × Int × Bool :=
    match ins with
    | .add | .sub =>
      let ins' := if imm < 0 then (if ins = .add then ArmIns.sub else ArmIns.add) else ins
      let imm' := if imm < 0 then -imm else imm
      (ins', imm', emitIns_valid_imm_for_add imm')
    | .strb | .strh | .str | .ldrsb | .ldrsh | .ldrsw | .ldrb | .ldrh | .ldr =>
      (ins, imm, emitIns_valid_imm_for_ldst_offset imm size)
    | _ => (ins, imm, false) -- unreachable: assert in the source
  let ins' := step.1
  let imm' := step.2.1
  let immFitsInIns := step.2.2
  if immFitsInIns then
    (immFitsInIns, [Event.insRRI ins' reg1 reg2 imm' InsOpts.none])
  else
    (immFitsInIns,
      instGen_Set_Reg_To_Imm size false tmpReg imm' false ++
        [Event.verifyRegUsed tmpReg] ++
        (if inUnwindRegion then [Event.unwindPadding] else []) ++
        [Event.insRRR ins' reg1 reg2 tmpReg])

/-- `CodeGen::genStackPointerAdjustment`: add `spDelta` to SP via
`genInstrWithConstant` (whose sign-flip turns a negative delta into a
`sub`), then report the unwind entry when requested. The second component
records whether `*pTmpRegIsZero` was cleared (the source clears it when
`genInstrWithConstant` returns true). The unwind entry records the
absolute value of the delta cast to `unsigned`. -/
def genStackPointerAdjustment (spDelta : Int) (tmpReg : Reg)
    (reportUnwindData : Bool) : List Event × Bool :=
  let r := genInstrWithConstant ArmIns.add EA_PTRSIZE REG_SPBASE REG_SPBASE
    spDelta tmpReg true
  (r.2 ++
    (if reportUnwindData then
      [Event.unwindAllocStack (spDelta.natAbs % 2 ^ 32)]
    else []),
   r.1)

/-- `CodeGen::genPrologSaveRegPair`: save a pair of registers in a prolog,
folding the SP adjustment into a pre-indexed `stp` when possible.
Preconditions (asserts in the source): `spOffset ≥ 0`, `spDelta ≤ 0`,
`spDelta % 16 = 0`, both registers of the same class, and
`¬useSaveNextPair` when `spDelta ≠ 0`. -/
def genPrologSaveRegPair (reg1 reg2 : Reg) (spOffset spDelta : Int)
    (useSaveNextPair : Bool) (tmpReg : Reg) : List Event :=
  (if spDelta ≠ 0 then
    if spOffset = 0 ∧ -512 ≤ spDelta then
      -- stp REG, REG + 1, [SP, #spDelta]!
      [Event.insRRRI ArmIns.stp reg1 reg2 REG_SPBASE spDelta InsOpts.preIndex,
       Event.unwindSaveRegPairPreindexed reg1 reg2 spDelta]
    else
      -- generate sub SP,SP,imm
      (genStackPointerAdjustment spDelta tmpReg true).1
  else []) ++
  (if spDelta ≠ 0 ∧ spOffset = 0 ∧ -512 ≤ spDelta then []
   else
    -- stp REG, REG + 1, [SP, #offset]
    Event.insRRRI ArmIns.stp reg1 reg2 REG_SPBASE spOffset InsOpts.none ::
      (if useSaveNextPair then [Event.unwindSaveNext]
       else [Event.unwindSaveRegPair reg1 reg2 spOffset]))

/-- `CodeGen::genPrologSaveReg`: save a single register in a prolog,
folding the SP adjustment into a pre-indexed `str` when possible.
Preconditions (asserts in the source): `spOffset ≥ 0`, `spDelta ≤ 0`,
`spDelta % 16 = 0`. -/
def genPrologSaveReg (reg1 : Reg) (spOffset spDelta : Int) (tmpReg : Reg) :
    List Event :=
  (if spDelta ≠ 0 then
    if spOffset = 0 ∧ -256 ≤ spDelta then
      -- str REG, [SP, #spDelta]!
      [Event.insRRI ArmIns.str reg1 REG_SPBASE spDelta InsOpts.preIndex,
       Event.unwindSaveRegPreindexed reg1 spDelta]
    else
      -- generate sub SP,SP,imm
      (genStackPointerAdjustment spDelta tmpReg true).1
  else []) ++
  (if spDelta ≠ 0 ∧ spOffset = 0 ∧ -256 ≤ spDelta then []
   else
    -- str REG, [SP, #offset]
    [Event.insRRI ArmIns.str reg1 REG_SPBASE spOffset InsOpts.none,
     Event.unwindSaveReg reg1 spOffset])

/-- `CodeGen::genEpilogRestoreRegPair`: the opposite of
`genPrologSaveRegPair`, using a post-indexed `ldp` and a positive delta.
Preconditions (asserts in the source): `spOffset ≥ 0`, `spDelta ≥ 0`,
`spDelta % 16 = 0`, both registers of the same class, and
`¬useSaveNextPair` when `spDelta ≠ 0`. -/
def genEpilogRestoreRegPair (reg1 reg2 : Reg) (spOffset spDelta : Int)
    (useSaveNextPair : Bool) (tmpReg : Reg) : List Event :=
  if spDelta ≠ 0 then
    if spOffset = 0 ∧ spDelta ≤ 504 then
      -- ldp reg1, reg2, [SP], #spDelta
      [Event.insRRRI ArmIns.ldp reg1 reg2 REG_SPBASE spDelta InsOpts.postIndex,
       Event.unwindSaveRegPairPreindexed reg1 reg2 (-spDelta)]
    else
      -- ldp reg1, reg2, [SP, #offset] then add SP,SP,imm
      [Event.insRRRI ArmIns.ldp reg1 reg2 REG_SPBASE spOffset InsOpts.none,
       Event.unwindSaveRegPair reg1 reg2 spOffset] ++
        (genStackPointerAdjustment spDelta tmpReg true).1
  else
    Event.insRRRI ArmIns.ldp reg1 reg2 REG_SPBASE spOffset InsOpts.none ::
      (if useSaveNextPair then [Event.unwindSaveNext]
       else [Event.unwindSaveRegPair reg1 reg2 spOffset])

/-- `CodeGen::genEpilogRestoreReg`: the opposite of `genPrologSaveReg`,
using a post-indexed `ldr` and a positive delta. Preconditions (asserts
in the source): `spOffset ≥ 0`, `spDelta ≥ 0`, `spDelta % 16 = 0`. -/
def genEpilogRestoreReg (reg1 : Reg) (spOffset spDelta : Int)
    (tmpReg : Reg) : List Event :=
  if spDelta ≠ 0 then
    if spOffset = 0 ∧ spDelta ≤ 255 then
      -- ldr REG, [SP], #spDelta
      [Event.insRRI ArmIns.ldr reg1 REG_SPBASE spDelta InsOpts.postIndex,
       Event.unwindSaveRegPreindexed reg1 (-spDelta)]
    else
      -- ldr reg1, [SP, #offset] then add SP,SP,imm
      [Event.insRRI ArmIns.ldr reg1 REG_SPBASE spOffset InsOpts.none,
       Event.unwindSaveReg reg1 spOffset] ++
        (genStackPointerAdjustment spDelta tmpReg true).1
  else
    -- ldr reg1, [SP, #offset]
    [Event.insRRI ArmIns.ldr reg1 REG_SPBASE spOffset InsOpts.none,
     Event.unwindSaveReg reg1 spOffset]

/-- `RegPair` from `codegenarm64.cpp`: two registers chosen for a combined
save/restore; `reg2 = none` models `REG_NA` (lone register). -/
structure RegPair where
  reg1 : Reg
  reg2 : Option Reg
  useSaveNextPair : Bool
  deriving DecidableEq, Repr

/-- The registers of a `regMaskTP` bitmask in increasing register-number
order, matching the `genFindLowestBit` extraction loop. -/
def regsOfMask (mask : Nat) : List Reg :=
  (List.range 64).filter mask.testBit

/-- The pairing loop of `genBuildRegPairsStack` over the registers in
increasing order: two registers pair when the second is `REG_NEXT` of the
first, the first is not `REG_R28` (the stack walker does not support the
(R28, FP) pair), and both are of the same register class. -/
def buildRegPairs : List Reg → List RegPair
  | [] => []
  | [r1] => [⟨r1, none, false⟩]
  | r1 :: r2 :: rest =>
    if r2 = REG_NEXT r1 ∧ r1 ≠ REG_R28 ∧
        genIsValidFloatReg r1 = genIsValidFloatReg r2 then
      ⟨r1, some r2, false⟩ :: buildRegPairs rest
    else
      ⟨r1, none, false⟩ :: buildRegPairs (r2 :: rest)

/-- One iteration of the `genSetUseSaveNextPairs` loop body: the current
pair is marked `useSaveNextPair` when both it and the previous stack entry
are full pairs, the previous pair's second register is `REG_NEXT`-adjacent
to the current pair's first, and the register classes agree. -/
def markStep (prev curr : RegPair) : RegPair :=
  let mark : Bool :=
    match prev.reg2, curr.reg2 with
    | some p2, some _ =>
      REG_NEXT p2 == curr.reg1 &&
        genIsValidFloatReg p2 == genIsValidFloatReg curr.reg1
    | _, _ => false
  if mark then { curr with useSaveNextPair := true } else curr

/-- The marking loop of `genSetUseSaveNextPairs`, carrying the previous
(possibly just-marked, which leaves its registers unchanged) stack
entry. -/
def setUseSaveNextLoop (prev : RegPair) : List RegPair → List RegPair
  | [] => []
  | curr :: rest =>
    let curr' := markStep prev curr
    curr' :: setUseSaveNextLoop curr' rest

/-- `CodeGen::genSetUseSaveNextPairs`: mark every pair on the stack whose
unwind info can be encoded with the cheaper `save_next` code. The first
entry (index 0) is never marked. -/
def genSetUseSaveNextPairs : List RegPair → List RegPair
  | [] => []
  | first :: rest => first :: setUseSaveNextLoop first rest

/-- `CodeGen::genBuildRegPairsStack`: build the ordered list of register
pairs for a save mask (lowest register first) and run the `save_next`
marking pass. -/
def genBuildRegPairsStack (mask : Nat) : List RegPair :=
  genSetUseSaveNextPairs (buildRegPairs (regsOfMask mask))

/-- `genFuncletInfo` (`FuncletFrameInfoDsc`): the funclet frame-shape
descriptor computed once per function by
`genCaptureFuncletPrologEpilogInfo`. -/
structure FuncletFrameInfo where
  fiFrameType : Nat
  fiSpDelta1 : Int
  fiSpDelta2 : Int
  fiSP_to_FPLR_save_delta : Int
  fiSP_to_PSP_slot_delta : Int
  fiSP_to_CalleeSave_delta : Int
  fiCallerSP_to_PSP_slot_delta : Int
  deriving DecidableEq, Repr

/-- `saveRegsPlusPSPSize`: callee-saved register bytes, plus the PSP slot
when present, plus the always-saved integer argument registers for
varargs functions. -/
def saveRegsPlusPSPSize (saveRegsCount : Nat) (hasPSPSym isVarArgs : Bool) :
    Nat :=
  saveRegsCount * REGSIZE_BYTES + (if hasPSPSym then REGSIZE_BYTES else 0) +
    (if isVarArgs then MAX_REG_ARG * REGSIZE_BYTES else 0)

/-- `maxFuncletFrameSizeAligned`: the aligned save area plus the aligned
outgoing-argument area; the small-vs-large frame discriminant. -/
def maxFuncletFrameSizeAligned (saveRegsCount : Nat)
    (hasPSPSym isVarArgs : Bool) (outgoingArgSpaceSize : Nat) : Nat :=
  roundUp16 (saveRegsPlusPSPSize saveRegsCount hasPSPSym isVarArgs) +
    roundUp16 outgoingArgSpaceSize

/-- `funcletFrameSizeAligned`: the aligned size of the actual funclet
frame (save area plus outgoing-argument area, aligned once). -/
def funcletFrameSizeAligned (saveRegsCount : Nat)
    (hasPSPSym isVarArgs : Bool) (outgoingArgSpaceSize : Nat) : Nat :=
  roundUp16 (saveRegsPlusPSPSize saveRegsCount hasPSPSym isVarArgs +
    outgoingArgSpaceSize)

/-- `CodeGen::genCaptureFuncletPrologEpilogInfo`: classify the funclet
frame shape and compute every delta the funclet prolog/epilog emitters
need. Inputs: the number of saved callee-saved registers (the mask's bit
count; the asserts require FP and LR in the mask, so `saveRegsCount ≥ 2`),
whether a PSP slot exists (`lvaPSPSym != BAD_VAR_NUM`), variadic-ness, the
outgoing-argument-space size, and the `genSaveFpLrWithAllCalleeSavedRegisters`
frame-shape flag. -/
def genCaptureFuncletPrologEpilogInfo (saveRegsCount : Nat)
    (hasPSPSym isVarArgs : Bool) (outgoingArgSpaceSize : Nat)
    (saveFpLrWithAll : Bool) : FuncletFrameInfo :=
  let varArgsRegsSize := if isVarArgs then MAX_REG_ARG * REGSIZE_BYTES else 0
  let S := saveRegsPlusPSPSize saveRegsCount hasPSPSym isVarArgs
  let SAligned := roundUp16 S
  let outgoingAligned := roundUp16 outgoingArgSpaceSize
  let maxAligned := maxFuncletFrameSizeAligned saveRegsCount hasPSPSym
    isVarArgs outgoingArgSpaceSize
  let frameSize := S + outgoingArgSpaceSize
  let frameSizeAligned := roundUp16 frameSize
  let framePad := frameSizeAligned - frameSize
  if maxAligned ≤ 512 then
    if saveFpLrWithAll then
      { fiFrameType := 4
        fiSpDelta1 := -(frameSizeAligned : Int)
        fiSpDelta2 := 0
        fiSP_to_FPLR_save_delta :=
          (frameSizeAligned : Int) - 2 * REGSIZE_BYTES - varArgsRegsSize
        fiSP_to_PSP_slot_delta := (outgoingArgSpaceSize + framePad : Nat)
        fiSP_to_CalleeSave_delta :=
          (outgoingArgSpaceSize + framePad : Nat) + REGSIZE_BYTES
        fiCallerSP_to_PSP_slot_delta := -(S : Int) }
    else
      { fiFrameType := if outgoingArgSpaceSize = 0 then 1 else 2
        fiSpDelta1 := -(frameSizeAligned : Int)
        fiSpDelta2 := 0
        fiSP_to_FPLR_save_delta := (outgoingArgSpaceSize : Int)
        fiSP_to_PSP_slot_delta :=
          (outgoingArgSpaceSize : Int) + 2 * REGSIZE_BYTES + framePad
        fiSP_to_CalleeSave_delta :=
          (outgoingArgSpaceSize : Int) + 2 * REGSIZE_BYTES + framePad +
            REGSIZE_BYTES
        fiCallerSP_to_PSP_slot_delta :=
          -((S - 2 * REGSIZE_BYTES : Nat) : Int) }
  else
    let SPad := SAligned - S
    if saveFpLrWithAll then
      { fiFrameType := 5
        fiSpDelta1 := -(SAligned : Int)
        fiSpDelta2 := -(outgoingAligned : Int)
        fiSP_to_FPLR_save_delta :=
          (frameSizeAligned : Int) - 2 * REGSIZE_BYTES - varArgsRegsSize
        fiSP_to_PSP_slot_delta :=
          (outgoingArgSpaceSize + framePad + SPad : Nat)
        fiSP_to_CalleeSave_delta :=
          (outgoingArgSpaceSize + framePad + SPad : Nat) + REGSIZE_BYTES
        fiCallerSP_to_PSP_slot_delta := -(S : Int) }
    else
      { fiFrameType := 3
        fiSpDelta1 := -(SAligned : Int)
        fiSpDelta2 := -(outgoingAligned : Int)
        fiSP_to_FPLR_save_delta := (outgoingAligned : Int)
        fiSP_to_PSP_slot_delta :=
          (outgoingAligned : Int) + 2 * REGSIZE_BYTES + SPad
        fiSP_to_CalleeSave_delta :=
          (outgoingAligned : Int) + 2 * REGSIZE_BYTES + SPad + REGSIZE_BYTES
        fiCallerSP_to_PSP_slot_delta :=
          -((SAligned - 2 * REGSIZE_BYTES - SPad : Nat) : Int) }

/-- The divisor operand of a divide node as genCodeForDivMod sees it:
a compile-time integral constant (`IsCnsIntOrI`) or a non-constant value
living in the divisor register. -/
inductive DivisorOperand where
  | cns (v : Int)
  | nonConst
  deriving DecidableEq, Repr

/-- Modelled after `genCodeForBinary` in this file for a divide node: it
emits the single three-register divide instruction. -/
def genCodeForBinaryDiv (signed : Bool) (targetReg dividendReg divisorReg :
    Reg) : List Event :=
  [Event.insRRR (if signed then ArmIns.sdiv else ArmIns.udiv) targetReg
    dividendReg divisorReg]

/-- `CodeGen::genCodeForDivMod`, integer path: `signed = true` for
`GT_DIV`, false for `GT_UDIV`. The temp label `sdivLabel` is label 0. -/
def genCodeForDivMod (signed : Bool) (divisor : DivisorOperand)
    (targetReg dividendReg divisorReg : Reg) : List Event :=
  if divisor = DivisorOperand.cns 0 then
    -- We unconditionally throw a divide by zero exception
    [Event.jumpToThrowHlpBlk JumpKind.jmp ThrowKind.divByZero]
  else
    if signed then
      let sdivLabel := 0
      let checkDividend : Bool :=
        match divisor with
        | .cns v => v == -1
        | .nonConst => true
      (match divisor with
       | .cns _ => []
       | .nonConst =>
         -- Check if the divisor is zero throw a DivideByZeroException
         [Event.insRI ArmIns.cmp divisorReg 0,
          Event.jumpToThrowHlpBlk JumpKind.eq ThrowKind.divByZero]) ++
      (if checkDividend then
        [Event.insRI ArmIns.cmp divisorReg (-1),
         Event.instJMP JumpKind.ne sdivLabel,
         Event.insRRR ArmIns.adds REG_ZR dividendReg dividendReg,
         Event.instJMP JumpKind.ne sdivLabel,
         Event.jumpToThrowHlpBlk JumpKind.vs ThrowKind.arithExcpn,
         Event.defineLabel sdivLabel]
      else []) ++
      genCodeForBinaryDiv true targetReg dividendReg divisorReg
    else
      (match divisor with
       | .cns _ => []
       | .nonConst =>
         [Event.insRI ArmIns.cmp divisorReg 0,
          Event.jumpToThrowHlpBlk JumpKind.eq ThrowKind.divByZero]) ++
      genCodeForBinaryDiv false targetReg dividendReg divisorReg

/-- The operation kind of a `genLockedInstructions` node. -/
inductive LockedOp where
  | xadd | xchg
  deriving DecidableEq, Repr

/-- `CodeGen::genLockedInstructions` (`GT_XADD`/`GT_XCHG`).
`atomics` is `compSupports(InstructionSet_Atomics)`; `dataContainedImm`
is `some v` when the data operand is a contained integral immediate.
`storeDataTmpReg`/`exResultReg` are the internal temporaries. The
`genConsume*` calls at function entry perform no emission and no
GC-marking, so the trace starts at the first emitted action. The retry
label is label 0. -/
def genLockedInstructions (oper : LockedOp) (atomics : Bool)
    (attr : EmitAttr) (addrReg dataReg targetReg exResultReg
    storeDataTmpReg : Reg) (dataContainedImm : Option Int) : List Event :=
  if atomics then
    (match oper with
     | .xchg => [Event.insRRR ArmIns.swpal dataReg targetReg addrReg]
     | .xadd =>
       if targetReg = REG_NA ∨ targetReg = REG_ZR then
         [Event.insRR ArmIns.staddl dataReg addrReg]
       else
         [Event.insRRR ArmIns.ldaddal dataReg targetReg addrReg]) ++
    [Event.memoryBarrier]
  else
    let storeDataReg :=
      if oper = LockedOp.xchg then dataReg else storeDataTmpReg
    let loadReg := if targetReg ≠ REG_NA then targetReg else storeDataReg
    let labelRetry := 0
    Event.gcMarkRegPtrVal addrReg ::
    Event.defineLabel labelRetry ::
    Event.insRR ArmIns.ldaxr loadReg addrReg ::
    ((match oper with
      | .xadd =>
        match dataContainedImm with
        | some v =>
          (genInstrWithConstant ArmIns.add attr storeDataReg loadReg v
            REG_NA false).2
        | none => [Event.insRRR ArmIns.add storeDataReg loadReg dataReg]
      | .xchg => []) ++
     [Event.insRRR ArmIns.stlxr exResultReg storeDataReg addrReg,
      Event.insJR ArmIns.cbnz labelRetry exResultReg,
      Event.memoryBarrier,
      Event.gcMarkRegSetNpt addrReg])

/-- `CodeGen::genCodeForCmpXchg` (`GT_CMPXCHG`). `comparandContainedImm`
is `some v` when the comparand is a contained integral immediate. The
retry label is label 0, the compare-fail label is label 1. -/
def genCodeForCmpXchg (atomics : Bool)
    (addrReg dataReg comparandReg targetReg exResultReg : Reg)
    (comparandContainedImm : Option Int) : List Event :=
  if atomics then
    (if targetReg ≠ comparandReg then
      [Event.insRR ArmIns.mov targetReg comparandReg]
    else []) ++
    [Event.insRRR ArmIns.casal targetReg dataReg addrReg,
     Event.memoryBarrier]
  else
    let labelRetry := 0
    let labelCompareFail := 1
    Event.gcMarkRegPtrVal addrReg ::
    Event.defineLabel labelRetry ::
    Event.insRR ArmIns.ldaxr targetReg addrReg ::
    ((match comparandContainedImm with
      | some v =>
        if v = 0 then
          [Event.insJR ArmIns.cbnz labelCompareFail targetReg]
        else
          [Event.insRI ArmIns.cmp targetReg v,
           Event.insJ ArmIns.bne labelCompareFail]
      | none =>
        [Event.insRR ArmIns.cmp targetReg comparandReg,
         Event.insJ ArmIns.bne labelCompareFail]) ++
     [Event.insRRR ArmIns.stlxr exResultReg dataReg addrReg,
      Event.insJR ArmIns.cbnz labelRetry exResultReg,
      Event.defineLabel labelCompareFail,
      Event.memoryBarrier,
      Event.gcMarkRegSetNpt addrReg])

/-! ## Helper lemmas -/

theorem roundUp16_le (n : Nat) : n ≤ roundUp16 n := by
  unfold roundUp16; omega

theorem roundUp16_lt_add (n : Nat) : roundUp16 n ≤ n + 15 := by
  unfold roundUp16; omega

/-! ## Claim C1 -/

/-- Claim C1 counterexample: with the same inputs (five saved registers
including FP/LR, a PSP slot, no varargs, zero outgoing-argument space) the
save-FP/LR-with-all-callee-saved branch computes a caller-SP-to-PSP-slot
offset of −48 while the save-FP/LR-separately branch computes −32, so the
offset is not invariant across the frame-shape branches. -/
theorem claim_C1_counterexample :
    (genCaptureFuncletPrologEpilogInfo 5 true false 0
        true).fiCallerSP_to_PSP_slot_delta = -48 ∧
    (genCaptureFuncletPrologEpilogInfo 5 true false 0
        false).fiCallerSP_to_PSP_slot_delta = -32 ∧
    (genCaptureFuncletPrologEpilogInfo 5 true false 0
        true).fiCallerSP_to_PSP_slot_delta ≠
      (genCaptureFuncletPrologEpilogInfo 5 true false 0
        false).fiCallerSP_to_PSP_slot_delta := by
  refine ⟨by decide, by decide, by decide⟩

/-- Claim C1 (amended): for a fixed callee-saved register set, variadic-ness
and PSP-slot presence, and a fixed FP/LR-placement choice
(`genSaveFpLrWithAllCalleeSavedRegisters`), the caller-SP-to-PSP-slot offset
computed by `genCaptureFuncletPrologEpilogInfo` does not depend on the
outgoing-argument-space size, hence is identical whichever of the
small-frame and large-frame branches is taken. -/
theorem claim_C1_amended (saveRegsCount : Nat) (hasPSPSym isVarArgs : Bool)
    (out1 out2 : Nat) (saveFpLrWithAll : Bool) (h2 : 2 ≤ saveRegsCount) :
    (genCaptureFuncletPrologEpilogInfo saveRegsCount hasPSPSym isVarArgs out1
        saveFpLrWithAll).fiCallerSP_to_PSP_slot_delta =
      (genCaptureFuncletPrologEpilogInfo saveRegsCount hasPSPSym isVarArgs
        out2 saveFpLrWithAll).fiCallerSP_to_PSP_slot_delta := by
  have hS : 16 ≤ saveRegsPlusPSPSize saveRegsCount hasPSPSym isVarArgs := by
    unfold saveRegsPlusPSPSize REGSIZE_BYTES; omega
  have hle := roundUp16_le (saveRegsPlusPSPSize saveRegsCount hasPSPSym
    isVarArgs)
  simp only [genCaptureFuncletPrologEpilogInfo,
    apply_ite FuncletFrameInfo.fiCallerSP_to_PSP_slot_delta]
  split_ifs <;> omega

/-- Closed witness for the amended claim C1 at a concrete input. -/
theorem claim_C1_amended_witness :
    2 ≤ 5 ∧
    (genCaptureFuncletPrologEpilogInfo 5 true false 0
        false).fiCallerSP_to_PSP_slot_delta =
      (genCaptureFuncletPrologEpilogInfo 5 true false 600
        false).fiCallerSP_to_PSP_slot_delta :=
  ⟨by decide, claim_C1_amended 5 true false 0 600 false (by decide)⟩

/-! ## Claim C4 -/

theorem fiSpDeltas_small (c : Nat) (p v : Bool) (out : Nat) (flag : Bool)
    (h : maxFuncletFrameSizeAligned c p v out ≤ 512) :
    (genCaptureFuncletPrologEpilogInfo c p v out flag).fiSpDelta1 =
        -(funcletFrameSizeAligned c p v out : Int) ∧
      (genCaptureFuncletPrologEpilogInfo c p v out flag).fiSpDelta2 = 0 := by
  simp only [genCaptureFuncletPrologEpilogInfo, funcletFrameSizeAligned,
    if_pos h]
  split <;> exact ⟨rfl, rfl⟩

theorem fiSpDeltas_large (c : Nat) (p v : Bool) (out : Nat) (flag : Bool)
    (h : ¬ maxFuncletFrameSizeAligned c p v out ≤ 512) :
    (genCaptureFuncletPrologEpilogInfo c p v out flag).fiSpDelta1 =
        -(roundUp16 (saveRegsPlusPSPSize c p v) : Int) ∧
      (genCaptureFuncletPrologEpilogInfo c p v out flag).fiSpDelta2 =
        -(roundUp16 out : Int) := by
  simp only [genCaptureFuncletPrologEpilogInfo, if_neg h]
  split <;> exact ⟨rfl, rfl⟩

/-- Claim C4: the funclet frame classifier produces a single SP
adjustment — `fiSpDelta2 = 0` with `fiSpDelta1` equal to minus the aligned
funclet frame size — exactly when the maximum aligned frame size is at most
512 bytes; otherwise both adjustments are strictly negative; and in every
case `fiSpDelta1 + fiSpDelta2` equals minus the aligned size of the frame
the chosen shape allocates (the aligned funclet frame size for small
frames, the maximum aligned frame size for large ones). The hypotheses
reflect the function's preconditions: the save mask contains FP and LR and
is drawn from the at most 20 callee-saved registers. -/
theorem claim_C4_sp_adjustments (c : Nat) (p v : Bool) (out : Nat)
    (flag : Bool) (h2 : 2 ≤ c) (h20 : c ≤ 20) :
    (((genCaptureFuncletPrologEpilogInfo c p v out flag).fiSpDelta2 = 0 ∧
        (genCaptureFuncletPrologEpilogInfo c p v out flag).fiSpDelta1 =
          -(funcletFrameSizeAligned c p v out : Int)) ↔
      maxFuncletFrameSizeAligned c p v out ≤ 512) ∧
    ((genCaptureFuncletPrologEpilogInfo c p v out flag).fiSpDelta1 +
        (genCaptureFuncletPrologEpilogInfo c p v out flag).fiSpDelta2 =
      -(if maxFuncletFrameSizeAligned c p v out ≤ 512 then
          (funcletFrameSizeAligned c p v out : Int)
        else (maxFuncletFrameSizeAligned c p v out : Int))) ∧
    (¬ maxFuncletFrameSizeAligned c p v out ≤ 512 →
      (genCaptureFuncletPrologEpilogInfo c p v out flag).fiSpDelta1 < 0 ∧
        (genCaptureFuncletPrologEpilogInfo c p v out flag).fiSpDelta2 < 0) := by
  have hS16 : 16 ≤ saveRegsPlusPSPSize c p v := by
    unfold saveRegsPlusPSPSize REGSIZE_BYTES; omega
  have hS232 : saveRegsPlusPSPSize c p v ≤ 232 := by
    unfold saveRegsPlusPSPSize REGSIZE_BYTES MAX_REG_ARG
    split_ifs <;> omega
  have hSle := roundUp16_le (saveRegsPlusPSPSize c p v)
  have hSub := roundUp16_lt_add (saveRegsPlusPSPSize c p v)
  have hmax : maxFuncletFrameSizeAligned c p v out =
      roundUp16 (saveRegsPlusPSPSize c p v) + roundUp16 out := rfl
  by_cases h : maxFuncletFrameSizeAligned c p v out ≤ 512
  · obtain ⟨e1, e2⟩ := fiSpDeltas_small c p v out flag h
    refine ⟨⟨fun _ => h, fun _ => ⟨e2, e1⟩⟩, ?_, fun hc => absurd h hc⟩
    rw [if_pos h, e1, e2]; ring
  · obtain ⟨e1, e2⟩ := fiSpDeltas_large c p v out flag h
    have hout : 0 < roundUp16 out := by omega
    refine ⟨⟨fun hx => ?_, fun hx => absurd hx h⟩, ?_, fun _ => ?_⟩
    · exfalso; rw [e2] at hx; omega
    · rw [if_neg h, e1, e2, hmax]; push_cast; ring
    · constructor
      · rw [e1]; omega
      · rw [e2]; omega

/-- Closed witness for claim C4 at a concrete input (a small frame and a
large frame both checked through the theorem). -/
theorem claim_C4_sp_adjustments_witness :
    (2 ≤ 5 ∧ 5 ≤ 20) ∧
    ((genCaptureFuncletPrologEpilogInfo 5 true false 600
        false).fiSpDelta1 +
      (genCaptureFuncletPrologEpilogInfo 5 true false 600
        false).fiSpDelta2 =
      -(if maxFuncletFrameSizeAligned 5 true false 600 ≤ 512 then
          (funcletFrameSizeAligned 5 true false 600 : Int)
        else (maxFuncletFrameSizeAligned 5 true false 600 : Int))) :=
  ⟨⟨by decide, by decide⟩,
    (claim_C4_sp_adjustments 5 true false 600 false (by decide)
      (by decide)).2.1⟩

/-! ## Claim C2 -/

/-- Claim C2 (code bug): `genInstrWithConstant` is documented ("returns
true if the immediate was too large and tmpReg was used and modified") and
used by `genStackPointerAdjustment` as returning true exactly when the
fallback path was taken, but the code returns `immFitsInIns` — true exactly
when the fallback was NOT taken. At the immediate `0x123456` (= 1193046),
which does not fit the add-immediate field, the fallback is taken (the
three-register form through the scratch register is emitted) yet the
function returns false; consequently `genStackPointerAdjustment` fails to
clear `*pTmpRegIsZero` although the scratch register was clobbered. -/
theorem claim_C2_return_value_inverted :
    (genInstrWithConstant ArmIns.add EA_PTRSIZE REG_SPBASE REG_SPBASE
        1193046 9 false).1 = false ∧
    Event.insRRR ArmIns.add REG_SPBASE REG_SPBASE 9 ∈
      (genInstrWithConstant ArmIns.add EA_PTRSIZE REG_SPBASE REG_SPBASE
        1193046 9 false).2 ∧
    (genStackPointerAdjustment (-1193046) 9 true).2 = false := by
  refine ⟨by decide, by decide, by decide⟩

/-! ## Claim C8 -/

/-- Claim C8: with unwind reporting enabled, `genStackPointerAdjustment`
records exactly the absolute value of the signed SP delta as the
stack-allocation unwind entry, for negative (prolog) and positive (epilog)
deltas alike; the precondition is that the absolute value fits the unwind
encoding's unsigned width. -/
theorem claim_C8_unwind_records_abs (spDelta : Int) (tmpReg : Reg)
    (hfit : spDelta.natAbs < 2 ^ 32) :
    (genStackPointerAdjustment spDelta tmpReg true).1 =
      (genInstrWithConstant ArmIns.add EA_PTRSIZE REG_SPBASE REG_SPBASE
          spDelta tmpReg true).2 ++
        [Event.unwindAllocStack spDelta.natAbs] := by
  unfold genStackPointerAdjustment
  rw [Nat.mod_eq_of_lt hfit]
  simp

/-- Closed witness for claim C8 at a concrete negative (prolog-direction)
delta. -/
theorem claim_C8_unwind_records_abs_witness :
    (Int.natAbs (-496) < 2 ^ 32) ∧
    (genStackPointerAdjustment (-496) 9 true).1 =
      (genInstrWithConstant ArmIns.add EA_PTRSIZE REG_SPBASE REG_SPBASE
          (-496) 9 true).2 ++
        [Event.unwindAllocStack (Int.natAbs (-496))] :=
  ⟨by decide, claim_C8_unwind_records_abs (-496) 9 (by decide)⟩

/-! ## Claims C5 and C10 -/

theorem genInstrWithConstant_trace_length (ins : ArmIns) (attr : EmitAttr)
    (reg1 reg2 : Reg) (imm : Int) (tmpReg : Reg) (inUnwind : Bool) :
    1 ≤ (genInstrWithConstant ins attr reg1 reg2 imm tmpReg
      inUnwind).2.length := by
  unfold genInstrWithConstant
  dsimp only
  repeat' split
  all_goals simp

theorem genStackPointerAdjustment_trace_length (spDelta : Int)
    (tmpReg : Reg) :
    2 ≤ (genStackPointerAdjustment spDelta tmpReg true).1.length := by
  unfold genStackPointerAdjustment
  have := genInstrWithConstant_trace_length ArmIns.add EA_PTRSIZE REG_SPBASE
    REG_SPBASE spDelta tmpReg true
  simp; omega

/-- Claim C5: for a call to `genPrologSaveRegPair` with nonzero `spDelta`
satisfying the preconditions, exactly one pre-indexed store-pair
instruction that both moves SP and stores the pair (with the pre-indexed
register-pair unwind entry) is emitted if and only if `spOffset = 0` and
`spDelta ≥ -512`; otherwise a separate SP adjustment is emitted first,
followed by a plain store-pair at the given offset. -/
theorem claim_C5_prolog_save_reg_pair (reg1 reg2 : Reg)
    (spOffset spDelta : Int) (tmpReg : Reg) (h0 : spDelta ≠ 0)
    (ho : 0 ≤ spOffset) (hd : spDelta ≤ 0) (hm : spDelta % 16 = 0)
    (hc : genIsValidFloatReg reg1 = genIsValidFloatReg reg2) :
    ((genPrologSaveRegPair reg1 reg2 spOffset spDelta false tmpReg =
        [Event.insRRRI ArmIns.stp reg1 reg2 REG_SPBASE spDelta
          InsOpts.preIndex,
         Event.unwindSaveRegPairPreindexed reg1 reg2 spDelta]) ↔
      (spOffset = 0 ∧ -512 ≤ spDelta)) ∧
    (¬ (spOffset = 0 ∧ -512 ≤ spDelta) →
      genPrologSaveRegPair reg1 reg2 spOffset spDelta false tmpReg =
        (genStackPointerAdjustment spDelta tmpReg true).1 ++
          [Event.insRRRI ArmIns.stp reg1 reg2 REG_SPBASE spOffset
            InsOpts.none,
           Event.unwindSaveRegPair reg1 reg2 spOffset]) := by
  by_cases hP : spOffset = 0 ∧ -512 ≤ spDelta
  · have htrace : genPrologSaveRegPair reg1 reg2 spOffset spDelta false
        tmpReg =
        [Event.insRRRI ArmIns.stp reg1 reg2 REG_SPBASE spDelta
          InsOpts.preIndex,
         Event.unwindSaveRegPairPreindexed reg1 reg2 spDelta] := by
      unfold genPrologSaveRegPair
      rw [if_pos h0, if_pos hP, if_pos ⟨h0, hP⟩]
      simp
    exact ⟨⟨fun _ => hP, fun _ => htrace⟩, fun hn => absurd hP hn⟩
  · have htrace : genPrologSaveRegPair reg1 reg2 spOffset spDelta false
        tmpReg =
        (genStackPointerAdjustment spDelta tmpReg true).1 ++
          [Event.insRRRI ArmIns.stp reg1 reg2 REG_SPBASE spOffset
            InsOpts.none,
           Event.unwindSaveRegPair reg1 reg2 spOffset] := by
      unfold genPrologSaveRegPair
      rw [if_pos h0, if_neg hP, if_neg (fun hx => hP hx.2)]
      simp
    refine ⟨⟨fun hx => ?_, fun hx => absurd hx hP⟩, fun _ => htrace⟩
    exfalso
    rw [htrace] at hx
    have hlen := congrArg List.length hx
    have h2 := genStackPointerAdjustment_trace_length spDelta tmpReg
    simp [List.length_append] at hlen
    rw [hlen] at h2
    simp at h2

/-- Closed witness for claim C5: the pre-indexed boundary `spDelta = -512`
with zero offset folds into a single instruction. -/
theorem claim_C5_prolog_save_reg_pair_witness :
    ((-512 : Int) ≠ 0 ∧ (0 : Int) ≤ 0 ∧ (-512 : Int) ≤ 0 ∧
      (-512 : Int) % 16 = 0 ∧
      genIsValidFloatReg 19 = genIsValidFloatReg 20) ∧
    (genPrologSaveRegPair 19 20 0 (-512) false 9 =
      [Event.insRRRI ArmIns.stp 19 20 REG_SPBASE (-512) InsOpts.preIndex,
       Event.unwindSaveRegPairPreindexed 19 20 (-512)]) :=
  ⟨⟨by decide, by decide, by decide, by decide, by decide⟩,
    (claim_C5_prolog_save_reg_pair 19 20 0 (-512) 9 (by decide) (by decide)
        (by decide) (by decide) (by decide)).1.mpr ⟨rfl, by decide⟩⟩

/-- Claim C10: the single-register primitives use asymmetric fold
thresholds — `genPrologSaveReg` folds the SP move into a pre-indexed store
exactly when `spOffset = 0 ∧ spDelta ≥ -256`, while `genEpilogRestoreReg`
folds it into a post-indexed load exactly when `spOffset = 0 ∧
spDelta ≤ 255`; hence at delta magnitude exactly 256 with zero offset the
prolog save is one combined instruction while the mirrored epilog restore
emits a separate load followed by an SP adjustment. -/
theorem claim_C10_asymmetric_fold_thresholds :
    (∀ (reg : Reg) (spOffset spDelta : Int) (tmpReg : Reg), spDelta ≠ 0 →
      ((genPrologSaveReg reg spOffset spDelta tmpReg =
          [Event.insRRI ArmIns.str reg REG_SPBASE spDelta InsOpts.preIndex,
           Event.unwindSaveRegPreindexed reg spDelta]) ↔
        (spOffset = 0 ∧ -256 ≤ spDelta))) ∧
    (∀ (reg : Reg) (spOffset spDelta : Int) (tmpReg : Reg), spDelta ≠ 0 →
      ((genEpilogRestoreReg reg spOffset spDelta tmpReg =
          [Event.insRRI ArmIns.ldr reg REG_SPBASE spDelta InsOpts.postIndex,
           Event.unwindSaveRegPreindexed reg (-spDelta)]) ↔
        (spOffset = 0 ∧ spDelta ≤ 255))) ∧
    (genPrologSaveReg 19 0 (-256) 9 =
      [Event.insRRI ArmIns.str 19 REG_SPBASE (-256) InsOpts.preIndex,
       Event.unwindSaveRegPreindexed 19 (-256)]) ∧
    (genEpilogRestoreReg 19 0 256 9 =
      [Event.insRRI ArmIns.ldr 19 REG_SPBASE 0 InsOpts.none,
       Event.unwindSaveReg 19 0,
       Event.insRRI ArmIns.add REG_SPBASE REG_SPBASE 256 InsOpts.none,
       Event.unwindAllocStack 256]) := by
  refine ⟨?_, ?_, by decide, by decide⟩
  · intro reg spOffset spDelta tmpReg h0
    by_cases hP : spOffset = 0 ∧ -256 ≤ spDelta
    · have htrace : genPrologSaveReg reg spOffset spDelta tmpReg =
          [Event.insRRI ArmIns.str reg REG_SPBASE spDelta InsOpts.preIndex,
           Event.unwindSaveRegPreindexed reg spDelta] := by
        unfold genPrologSaveReg
        rw [if_pos h0, if_pos hP, if_pos ⟨h0, hP⟩]
        simp
      exact ⟨fun _ => hP, fun _ => htrace⟩
    · have htrace : genPrologSaveReg reg spOffset spDelta tmpReg =
          (genStackPointerAdjustment spDelta tmpReg true).1 ++
            [Event.insRRI ArmIns.str reg REG_SPBASE spOffset InsOpts.none,
             Event.unwindSaveReg reg spOffset] := by
        unfold genPrologSaveReg
        rw [if_pos h0, if_neg hP, if_neg (fun hx => hP hx.2)]
      refine ⟨fun hx => ?_, fun hx => absurd hx hP⟩
      exfalso
      rw [htrace] at hx
      have hlen := congrArg List.length hx
      have h2 := genStackPointerAdjustment_trace_length spDelta tmpReg
      simp [List.length_append] at hlen
      rw [hlen] at h2
      simp at h2
  · intro reg spOffset spDelta tmpReg h0
    by_cases hP : spOffset = 0 ∧ spDelta ≤ 255
    · have htrace : genEpilogRestoreReg reg spOffset spDelta tmpReg =
          [Event.insRRI ArmIns.ldr reg REG_SPBASE spDelta InsOpts.postIndex,
           Event.unwindSaveRegPreindexed reg (-spDelta)] := by
        unfold genEpilogRestoreReg
        rw [if_pos h0, if_pos hP]
      exact ⟨fun _ => hP, fun _ => htrace⟩
    · have htrace : genEpilogRestoreReg reg spOffset spDelta tmpReg =
          [Event.insRRI ArmIns.ldr reg REG_SPBASE spOffset InsOpts.none,
           Event.unwindSaveReg reg spOffset] ++
            (genStackPointerAdjustment spDelta tmpReg true).1 := by
        unfold genEpilogRestoreReg
        rw [if_pos h0, if_neg hP]
      refine ⟨fun hx => ?_, fun hx => absurd hx hP⟩
      exfalso
      rw [htrace] at hx
      have hlen := congrArg List.length hx
      have h2 := genStackPointerAdjustment_trace_length spDelta tmpReg
      simp [List.length_append] at hlen
      rw [hlen] at h2
      simp at h2

/-- Closed witness for claim C10: the prolog threshold at `spDelta = -256`
(folds) and the epilog threshold at `spDelta = 256` (does not fold). -/
theorem claim_C10_asymmetric_fold_thresholds_witness :
    ((-256 : Int) ≠ 0 ∧ (256 : Int) ≠ 0) ∧
    (genPrologSaveReg 19 0 (-256) 9 =
        [Event.insRRI ArmIns.str 19 REG_SPBASE (-256) InsOpts.preIndex,
         Event.unwindSaveRegPreindexed 19 (-256)]) ∧
    ¬ (genEpilogRestoreReg 19 0 256 9 =
        [Event.insRRI ArmIns.ldr 19 REG_SPBASE 256 InsOpts.postIndex,
         Event.unwindSaveRegPreindexed 19 (-256)]) :=
  ⟨⟨by decide, by decide⟩,
    (claim_C10_asymmetric_fold_thresholds.1 19 0 (-256) 9 (by decide)).mpr
      ⟨rfl, by decide⟩,
    fun hx =>
      by simpa using
        ((claim_C10_asymmetric_fold_thresholds.2.1 19 0 256 9
          (by decide)).mp hx).2⟩

/-! ## Claim C7 -/

/-- Claim C7: for a signed divide with a non-constant divisor,
`genCodeForDivMod` emits the divisor-equals-zero check branching to the
divide-by-zero trap, followed by the divisor-equals-minus-one /
dividend-equals-minimum-value guard (the self-add-with-overflow-flag test)
branching to the arithmetic-exception trap, ahead of the divide; for a
compile-time-constant divisor that is neither 0 nor −1 the divide
instruction is emitted directly with no guard code. -/
theorem claim_C7_signed_divide_guards (targetReg dividendReg divisorReg :
    Reg) :
    (genCodeForDivMod true DivisorOperand.nonConst targetReg dividendReg
        divisorReg =
      [Event.insRI ArmIns.cmp divisorReg 0,
       Event.jumpToThrowHlpBlk JumpKind.eq ThrowKind.divByZero,
       Event.insRI ArmIns.cmp divisorReg (-1),
       Event.instJMP JumpKind.ne 0,
       Event.insRRR ArmIns.adds REG_ZR dividendReg dividendReg,
       Event.instJMP JumpKind.ne 0,
       Event.jumpToThrowHlpBlk JumpKind.vs ThrowKind.arithExcpn,
       Event.defineLabel 0,
       Event.insRRR ArmIns.sdiv targetReg dividendReg divisorReg]) ∧
    (∀ c : Int, c ≠ 0 → c ≠ -1 →
      genCodeForDivMod true (DivisorOperand.cns c) targetReg dividendReg
        divisorReg =
        [Event.insRRR ArmIns.sdiv targetReg dividendReg divisorReg]) := by
  constructor
  · rfl
  · intro c hc0 hc1
    unfold genCodeForDivMod
    rw [if_neg (by simp [hc0])]
    simp [genCodeForBinaryDiv, hc1]

/-- Closed witness for claim C7: divisor constant 7 (neither 0 nor −1)
takes the guard-free path. -/
theorem claim_C7_signed_divide_guards_witness :
    ((7 : Int) ≠ 0 ∧ (7 : Int) ≠ -1) ∧
    genCodeForDivMod true (DivisorOperand.cns 7) 3 1 2 =
      [Event.insRRR ArmIns.sdiv 3 1 2] :=
  ⟨⟨by decide, by decide⟩,
    (claim_C7_signed_divide_guards 3 1 2).2 7 (by decide) (by decide)⟩

/-! ## Claim C9 -/

theorem movEmitLoop_no_gc (reg : Reg) (imm : Int) (skipVal : Nat) :
    ∀ (l : List Nat) (ins : ArmIns) (e : Event),
      e ∈ movEmitLoop reg imm skipVal l ins → e.isGcEvent = false := by
  intro l
  induction l with
  | nil => intro ins e he; simp [movEmitLoop] at he
  | cons i rest ih =>
    intro ins e he
    unfold movEmitLoop at he
    dsimp only at he
    split at he
    · rcases List.mem_cons.mp he with h | h
      · subst h; rfl
      · exact ih _ _ h
    · exact ih _ _ he

theorem instGen_Set_Reg_To_Imm_no_gc (attr : EmitAttr) (isReloc : Bool)
    (reg : Reg) (imm : Int) (flagsSet : Bool) (e : Event)
    (he : e ∈ instGen_Set_Reg_To_Imm attr isReloc reg imm flagsSet) :
    e.isGcEvent = false := by
  unfold instGen_Set_Reg_To_Imm instGen_Set_Reg_To_Zero at he
  rcases List.mem_append.mp he with h | h
  · split at h
    · simp at h; subst h; rfl
    · split at h
      · simp at h; subst h; rfl
      · rcases List.mem_append.mp h with h2 | h2
        · split at h2
          · simp at h2; subst h2; rfl
          · exact movEmitLoop_no_gc reg imm _ _ _ e h2
        · split at h2
          · simp at h2; subst h2; rfl
          · simp at h2
  · simp at h; subst h; rfl

theorem no_gc_append {l1 l2 : List Event}
    (h1 : ∀ e ∈ l1, e.isGcEvent = false)
    (h2 : ∀ e ∈ l2, e.isGcEvent = false) :
    ∀ e ∈ l1 ++ l2, e.isGcEvent = false := by
  intro e he
  rcases List.mem_append.mp he with h | h
  · exact h1 e h
  · exact h2 e h

theorem genInstrWithConstant_no_gc (ins : ArmIns) (attr : EmitAttr)
    (reg1 reg2 : Reg) (imm : Int) (tmpReg : Reg) (inUnwind : Bool) :
    ∀ e ∈ (genInstrWithConstant ins attr reg1 reg2 imm tmpReg inUnwind).2,
      e.isGcEvent = false := by
  unfold genInstrWithConstant
  dsimp only
  repeat' split
  all_goals
    first
    | (intro e he; fin_cases he <;> rfl)
    | (refine no_gc_append (no_gc_append (no_gc_append ?_ ?_) ?_) ?_ <;>
        first
        | exact instGen_Set_Reg_To_Imm_no_gc _ _ _ _ _
        | (intro e he; fin_cases he <;> rfl))

/-- Claim C9: on the non-native (load-exclusive/store-exclusive retry
loop) path of
atomic exchange/add (`genLockedInstructions`) and compare-and-swap
(`genCodeForCmpXchg`), the address register is marked as a tracked GC
pointer before the first loop instruction and unmarked only after the whole
sequence including the trailing memory fence: the emitted trace is the GC
mark, then a body free of GC-liveness events, then the fence, then the
unmark. -/
theorem claim_C9_gc_mark_spans_atomic_loop :
    (∀ (oper : LockedOp) (attr : EmitAttr)
        (addrReg dataReg targetReg exResultReg storeDataTmpReg : Reg)
        (dataContainedImm : Option Int),
      ∃ body : List Event,
        genLockedInstructions oper false attr addrReg dataReg targetReg
            exResultReg storeDataTmpReg dataContainedImm =
          Event.gcMarkRegPtrVal addrReg ::
            (body ++ [Event.memoryBarrier, Event.gcMarkRegSetNpt addrReg]) ∧
        ∀ e ∈ body, e.isGcEvent = false) ∧
    (∀ (addrReg dataReg comparandReg targetReg exResultReg : Reg)
        (comparandContainedImm : Option Int),
      ∃ body : List Event,
        genCodeForCmpXchg false addrReg dataReg comparandReg targetReg
            exResultReg comparandContainedImm =
          Event.gcMarkRegPtrVal addrReg ::
            (body ++ [Event.memoryBarrier, Event.gcMarkRegSetNpt addrReg]) ∧
        ∀ e ∈ body, e.isGcEvent = false) := by
  constructor
  · intro oper attr addrReg dataReg targetReg exResultReg storeDataTmpReg
      dataContainedImm
    cases oper with
    | xchg =>
      refine ⟨[Event.defineLabel 0,
        Event.insRR ArmIns.ldaxr
          (if targetReg ≠ REG_NA then targetReg else dataReg) addrReg,
        Event.insRRR ArmIns.stlxr exResultReg dataReg addrReg,
        Event.insJR ArmIns.cbnz 0 exResultReg], ?_, ?_⟩
      · simp [genLockedInstructions]
      · intro e he; fin_cases he <;> rfl
    | xadd =>
      cases dataContainedImm with
      | none =>
        refine ⟨[Event.defineLabel 0,
          Event.insRR ArmIns.ldaxr
            (if targetReg ≠ REG_NA then targetReg else storeDataTmpReg)
            addrReg,
          Event.insRRR ArmIns.add storeDataTmpReg
            (if targetReg ≠ REG_NA then targetReg else storeDataTmpReg)
            dataReg,
          Event.insRRR ArmIns.stlxr exResultReg storeDataTmpReg addrReg,
          Event.insJR ArmIns.cbnz 0 exResultReg], ?_, ?_⟩
        · simp [genLockedInstructions]
        · intro e he; fin_cases he <;> rfl
      | some v =>
        refine ⟨[Event.defineLabel 0,
          Event.insRR ArmIns.ldaxr
            (if targetReg ≠ REG_NA then targetReg else storeDataTmpReg)
            addrReg] ++
          (genInstrWithConstant ArmIns.add attr storeDataTmpReg
            (if targetReg ≠ REG_NA then targetReg else storeDataTmpReg) v
            REG_NA false).2 ++
          [Event.insRRR ArmIns.stlxr exResultReg storeDataTmpReg addrReg,
           Event.insJR ArmIns.cbnz 0 exResultReg], ?_, ?_⟩
        · simp [genLockedInstructions]
        · intro e he
          rcases List.mem_append.mp he with h | h
          · rcases List.mem_append.mp h with h2 | h2
            · rcases List.mem_cons.mp h2 with h3 | h3
              · subst h3; rfl
              · simp at h3; subst h3; rfl
            · exact genInstrWithConstant_no_gc _ _ _ _ _ _ _ e h2
          · rcases List.mem_cons.mp h with h3 | h3
            · subst h3; rfl
            · simp at h3; subst h3; rfl
  · intro addrReg dataReg comparandReg targetReg exResultReg
      comparandContainedImm
    cases comparandContainedImm with
    | none =>
      refine ⟨[Event.defineLabel 0, Event.insRR ArmIns.ldaxr targetReg
          addrReg,
        Event.insRR ArmIns.cmp targetReg comparandReg,
        Event.insJ ArmIns.bne 1,
        Event.insRRR ArmIns.stlxr exResultReg dataReg addrReg,
        Event.insJR ArmIns.cbnz 0 exResultReg,
        Event.defineLabel 1], ?_, ?_⟩
      · simp [genCodeForCmpXchg]
      · intro e he; fin_cases he <;> rfl
    | some v =>
      by_cases hv : v = 0
      · subst hv
        refine ⟨[Event.defineLabel 0, Event.insRR ArmIns.ldaxr targetReg
            addrReg,
          Event.insJR ArmIns.cbnz 1 targetReg,
          Event.insRRR ArmIns.stlxr exResultReg dataReg addrReg,
          Event.insJR ArmIns.cbnz 0 exResultReg,
          Event.defineLabel 1], ?_, ?_⟩
        · simp [genCodeForCmpXchg]
        · intro e he; fin_cases he <;> rfl
      · refine ⟨[Event.defineLabel 0, Event.insRR ArmIns.ldaxr targetReg
            addrReg,
          Event.insRI ArmIns.cmp targetReg v,
          Event.insJ ArmIns.bne 1,
          Event.insRRR ArmIns.stlxr exResultReg dataReg addrReg,
          Event.insJR ArmIns.cbnz 0 exResultReg,
          Event.defineLabel 1], ?_, ?_⟩
        · simp [genCodeForCmpXchg, hv]
        · intro e he; fin_cases he <;> rfl

/-- Closed witness for claim C9 at a concrete atomic-exchange node on the
fallback path. -/
theorem claim_C9_gc_mark_spans_atomic_loop_witness :
    ∃ body : List Event,
      genLockedInstructions LockedOp.xchg false EA_8BYTE 5 6 7 8 9 none =
        Event.gcMarkRegPtrVal 5 ::
          (body ++ [Event.memoryBarrier, Event.gcMarkRegSetNpt 5]) ∧
      ∀ e ∈ body, e.isGcEvent = false :=
  claim_C9_gc_mark_spans_atomic_loop.1 LockedOp.xchg EA_8BYTE 5 6 7 8 9 none

/-! ## Claim C3 -/

/-- Following the spec's words (§8, constant-materialization minimality):
the number of non-sentinel 16-bit fields under whichever of the two
sentinel choices (all-zero start vs. all-one start) yields fewer
non-sentinel fields. Stated from the spec for comparison against the
code's emission count. -/
def specMinNonSentinelFields (attr : EmitAttr) (imm : Int) : Nat :=
  min (((movFields attr imm).filter (· ≠ 0)).length)
    (((movFields attr imm).filter (· ≠ 65535)).length)

theorem insCount_append (l1 l2 : List Event) :
    insCount (l1 ++ l2) = insCount l1 + insCount l2 := by
  simp [insCount, List.filter_append]

theorem insCount_movEmitLoop (reg : Reg) (imm : Int) (skipVal : Nat) :
    ∀ (l : List Nat) (ins : ArmIns),
      insCount (movEmitLoop reg imm skipVal l ins) =
        ((l.map (halfwordAt imm)).filter (· ≠ skipVal)).length := by
  intro l
  induction l with
  | nil => intro ins; rfl
  | cons i rest ih =>
    intro ins
    unfold movEmitLoop
    dsimp only
    by_cases h : halfwordAt imm i = skipVal
    · rw [if_neg (by simp [h])]
      simp [h, ih]
    · rw [if_pos h]
      have hstep : insCount (Event.insRII ins reg
          (if ins = ArmIns.movn then (65535 - halfwordAt imm i : Nat)
           else halfwordAt imm i) i InsOpts.lsl ::
          movEmitLoop reg imm skipVal rest ArmIns.movk) =
          1 + insCount (movEmitLoop reg imm skipVal rest ArmIns.movk) := by
        simp [insCount, Event.isInstruction]
        omega
      rw [hstep, ih]
      simp [h]
      omega

theorem sentinel_score_sum (h : Nat → Nat) :
    ∀ l : List Nat,
      (l.map fun i =>
        if h i = 65535 then (1 : Int) else if h i = 0 then -1 else 0).sum =
      (((l.map h).filter (· ≠ 0)).length : Int) -
        (((l.map h).filter (· ≠ 65535)).length : Int) := by
  intro l
  induction l with
  | nil => simp
  | cons i rest ih =>
    simp only [List.map_cons, List.sum_cons, List.filter_cons]
    by_cases h1 : h i = 65535
    · have h2 : h i ≠ 0 := by omega
      simp [h1, h2, ih]
      ring
    · by_cases h2 : h i = 0
      · simp [h1, h2, ih]
        ring
      · simp [h1, h2, ih]

theorem preferMovn_eq_counts (attr : EmitAttr) (imm : Int) :
    preferMovn attr imm =
      (((movFields attr imm).filter (· ≠ 0)).length : Int) -
        (((movFields attr imm).filter (· ≠ 65535)).length : Int) := by
  unfold preferMovn movFields
  exact sentinel_score_sum (halfwordAt imm) (movFieldPositions attr)

/-- Claim C3 (amended): for a nonzero immediate that does not fit a single
`mov`, `instGen_Set_Reg_To_Imm` emits exactly as many instructions as
there are non-sentinel 16-bit fields under whichever sentinel choice
(all-zero start via `movz` vs. all-one start via `movn`) yields fewer
non-sentinel fields — i.e. one initializing instruction plus one overwrite
per remaining non-sentinel field; and for the value 0 exactly one
instruction is emitted. -/
theorem claim_C3_instruction_count :
    (∀ (attr : EmitAttr) (reg : Reg) (imm : Int), imm ≠ 0 →
      emitIns_valid_imm_for_mov imm attr = false →
      insCount (instGen_Set_Reg_To_Imm attr false reg imm false) =
        specMinNonSentinelFields attr imm) ∧
    (∀ (attr : EmitAttr) (reg : Reg),
      insCount (instGen_Set_Reg_To_Imm attr false reg 0 false) = 1) := by
  constructor
  · intro attr reg imm h0 hmov
    unfold instGen_Set_Reg_To_Imm
    rw [if_neg (by simp), if_neg h0, if_neg (by simp [hmov])]
    dsimp only
    rw [insCount_append, insCount_append]
    have hcnt := preferMovn_eq_counts attr imm
    have hmf : (movFieldPositions attr).map (halfwordAt imm) =
        movFields attr imm := rfl
    have hz : insCount (if (false : Bool) = true then
        [Event.insRI ArmIns.tst reg 0] else []) = 0 := rfl
    have hv : insCount [Event.verifyRegUsed reg] = 0 := rfl
    rw [hz, hv]
    by_cases hpm : 0 < preferMovn attr imm
    · rw [if_pos hpm, if_pos hpm, insCount_movEmitLoop, hmf]
      have hle : ((movFields attr imm).filter (· ≠ 65535)).length ≤
          ((movFields attr imm).filter (· ≠ 0)).length := by omega
      unfold specMinNonSentinelFields
      rw [min_eq_right hle]
      omega
    · rw [if_neg hpm, if_neg hpm, insCount_movEmitLoop, hmf]
      have hle : ((movFields attr imm).filter (· ≠ 0)).length ≤
          ((movFields attr imm).filter (· ≠ 65535)).length := by omega
      unfold specMinNonSentinelFields
      rw [min_eq_left hle]
      omega
  · intro attr reg
    rfl

/-- Closed witness for the amended claim C3 at the immediate `0x120034`
(two nonzero halfwords, not single-`mov` encodable): two instructions,
matching the two non-sentinel fields of the better (all-zero) sentinel. -/
theorem claim_C3_instruction_count_witness :
    ((1179700 : Int) ≠ 0 ∧
      emitIns_valid_imm_for_mov 1179700 EA_8BYTE = false) ∧
    insCount (instGen_Set_Reg_To_Imm EA_8BYTE false 9 1179700 false) =
      specMinNonSentinelFields EA_8BYTE 1179700 :=
  ⟨⟨by decide, by decide⟩,
    claim_C3_instruction_count.1 EA_8BYTE 9 1179700 (by decide) (by decide)⟩

/-- Claim C3 counterexample: at the immediate `0x120034` (64-bit, nonzero,
not single-`mov` encodable) the code emits 2 instructions while the claim's
formula `1 + (fewest non-sentinel fields)` demands 3. -/
theorem claim_C3_counterexample :
    (1179700 : Int) ≠ 0 ∧
    emitIns_valid_imm_for_mov 1179700 EA_8BYTE = false ∧
    insCount (instGen_Set_Reg_To_Imm EA_8BYTE false 9 1179700 false) = 2 ∧
    specMinNonSentinelFields EA_8BYTE 1179700 = 2 ∧
    insCount (instGen_Set_Reg_To_Imm EA_8BYTE false 9 1179700 false) ≠
      1 + specMinNonSentinelFields EA_8BYTE 1179700 := by
  refine ⟨by decide, by decide, by decide, by decide, by decide⟩

/-! ## Claim C6 -/

/-- The conditions under which `genSetUseSaveNextPairs` marks `b` as a
`save_next` continuation of `a`: both are full two-register pairs, the
second register of `a` is numerically adjacent to the first of `b`, and
both are of the same register class. -/
def saveNextGuard (a b : RegPair) : Prop :=
  ∃ p2 c2, a.reg2 = some p2 ∧ b.reg2 = some c2 ∧ REG_NEXT p2 = b.reg1 ∧
    genIsValidFloatReg p2 = genIsValidFloatReg b.reg1

theorem markStep_reg1 (p c : RegPair) : (markStep p c).reg1 = c.reg1 := by
  unfold markStep; dsimp only; split <;> rfl

theorem markStep_reg2 (p c : RegPair) : (markStep p c).reg2 = c.reg2 := by
  unfold markStep; dsimp only; split <;> rfl

theorem markStep_marked (p c : RegPair)
    (h : (markStep p c).useSaveNextPair = true)
    (hc : c.useSaveNextPair = false) : saveNextGuard p (markStep p c) := by
  unfold markStep at h ⊢
  dsimp only at h ⊢
  split at h
  case isTrue hm =>
    rw [if_pos hm]
    rcases hp : p.reg2 with _ | p2
    · rw [hp] at hm; simp at hm
    · rcases hcr : c.reg2 with _ | c2
      · rw [hp, hcr] at hm; simp at hm
      · rw [hp, hcr] at hm
        simp only [Bool.and_eq_true, beq_iff_eq] at hm
        exact ⟨p2, c2, hp, rfl, hm.1, hm.2⟩
  case isFalse hm =>
    rw [hc] at h
    cases h

theorem setUseSaveNextLoop_sound :
    ∀ (l : List RegPair) (prev : RegPair),
      (∀ p ∈ l, p.useSaveNextPair = false) →
      (∀ b, (setUseSaveNextLoop prev l).get? 0 = some b →
          b.useSaveNextPair = true → saveNextGuard prev b) ∧
      (∀ (i : Nat) (a b : RegPair),
          (setUseSaveNextLoop prev l).get? i = some a →
          (setUseSaveNextLoop prev l).get? (i + 1) = some b →
          b.useSaveNextPair = true → saveNextGuard a b) := by
  intro l
  induction l with
  | nil =>
    intro prev hl
    constructor
    · intro b hb; simp [setUseSaveNextLoop] at hb
    · intro i a b ha hb; simp [setUseSaveNextLoop] at hb
  | cons curr rest ih =>
    intro prev hl
    have hl2 : ∀ p ∈ rest, p.useSaveNextPair = false := fun p hp =>
      hl p (List.mem_cons_of_mem _ hp)
    have hcurr : curr.useSaveNextPair = false :=
      hl curr (List.mem_cons_self _ _)
    have hout : setUseSaveNextLoop prev (curr :: rest) =
        markStep prev curr ::
          setUseSaveNextLoop (markStep prev curr) rest := rfl
    obtain ⟨ih1, ih2⟩ := ih (markStep prev curr) hl2
    constructor
    · intro b hb htrue
      rw [hout] at hb
      simp only [List.get?_cons_zero, Option.some.injEq] at hb
      subst hb
      exact markStep_marked prev curr htrue hcurr
    · intro i a b ha hb htrue
      rw [hout] at ha hb
      cases i with
      | zero =>
        simp only [List.get?_cons_zero, Option.some.injEq] at ha
        subst ha
        rw [List.get?_cons_succ] at hb
        exact ih1 b hb htrue
      | succ j =>
        rw [List.get?_cons_succ] at ha hb
        exact ih2 j a b ha hb htrue

theorem buildRegPairs_all_false :
    ∀ l : List Reg, ∀ p ∈ buildRegPairs l, p.useSaveNextPair = false := by
  intro l
  induction l using buildRegPairs.induct with
  | case1 => intro p hp; simp [buildRegPairs] at hp
  | case2 r1 =>
    intro p hp
    simp only [buildRegPairs, List.mem_singleton] at hp
    subst hp; rfl
  | case3 r1 r2 rest hcond ih =>
    intro p hp
    unfold buildRegPairs at hp
    rw [if_pos hcond] at hp
    rcases List.mem_cons.mp hp with h | h
    · subst h; rfl
    · exact ih p h
  | case4 r1 r2 rest hcond ih =>
    intro p hp
    unfold buildRegPairs at hp
    rw [if_neg hcond] at hp
    rcases List.mem_cons.mp hp with h | h
    · subst h; rfl
    · exact ih p h

/-- Claim C6: after `genBuildRegPairsStack` (pair construction followed by
the `genSetUseSaveNextPairs` marking pass), a pair carries
`useSaveNextPair` only when the previous stack entry is a full
two-register pair, the current entry is a full pair, the previous pair's
second register is `REG_NEXT`-adjacent to the current pair's first, and
both are of the same register class — in particular never across an
integer/float class boundary; the first stack entry is never marked. -/
theorem claim_C6_save_next_only_when_adjacent :
    (∀ (mask : Nat) (h : RegPair),
      (genBuildRegPairsStack mask).head? = some h →
        h.useSaveNextPair = false) ∧
    (∀ (mask : Nat) (i : Nat) (a b : RegPair),
      (genBuildRegPairsStack mask).get? i = some a →
      (genBuildRegPairsStack mask).get? (i + 1) = some b →
      b.useSaveNextPair = true → saveNextGuard a b) := by
  constructor
  · intro mask h hh
    unfold genBuildRegPairsStack genSetUseSaveNextPairs at hh
    have hall := buildRegPairs_all_false (regsOfMask mask)
    rcases hb : buildRegPairs (regsOfMask mask) with _ | ⟨first, rest⟩
    · rw [hb] at hh; cases hh
    · rw [hb] at hh
      simp only [List.head?_cons, Option.some.injEq] at hh
      have hmem : first ∈ buildRegPairs (regsOfMask mask) := by
        rw [hb]; exact List.mem_cons_self _ _
      rw [← hh]
      exact hall first hmem
  · intro mask i a b ha hb htrue
    unfold genBuildRegPairsStack genSetUseSaveNextPairs at ha hb
    have hall := buildRegPairs_all_false (regsOfMask mask)
    rcases hbuild : buildRegPairs (regsOfMask mask) with _ | ⟨first, rest⟩
    · rw [hbuild] at hb; cases hb
    · rw [hbuild] at ha hb
      have hrest : ∀ p ∈ rest, p.useSaveNextPair = false := fun p hp =>
        hall p (hbuild ▸ List.mem_cons_of_mem _ hp)
      obtain ⟨s1, s2⟩ := setUseSaveNextLoop_sound rest first hrest
      cases i with
      | zero =>
        simp only [List.get?_cons_zero, Option.some.injEq] at ha
        subst ha
        rw [List.get?_cons_succ] at hb
        exact s1 b hb htrue
      | succ j =>
        rw [List.get?_cons_succ] at ha hb
        exact s2 j a b ha hb htrue

/-- Closed witness for claim C6: the mask {x19, x20, x21, x22} produces
pairs (19, 20) and (21, 22), the second marked as a continuation, and the
guard conditions hold between them. -/
theorem claim_C6_save_next_only_when_adjacent_witness :
    ((genBuildRegPairsStack 7864320).get? 0 =
        some ⟨19, some 20, false⟩ ∧
      (genBuildRegPairsStack 7864320).get? 1 =
        some ⟨21, some 22, true⟩ ∧
      (⟨21, some 22, true⟩ : RegPair).useSaveNextPair = true) ∧
    saveNextGuard ⟨19, some 20, false⟩ ⟨21, some 22, true⟩ :=
  ⟨⟨by decide, by decide, by decide⟩,
    claim_C6_save_next_only_when_adjacent.2 7864320 0
      ⟨19, some 20, false⟩ ⟨21, some 22, true⟩ (by decide) (by decide)
      (by decide)⟩

end CodegenArm64
